import Mathlib

/-!
Verification of the anomaly-detection engine in `guard.py` (ransomware guard).

The Python source is shallowly embedded below:

* bytes are `List ℕ` (each element a byte value 0..255),
* Python floats used for times / mtimes / ratios are modelled as exact `ℚ`,
* the BLAKE3 digest (external C library, not part of this repository) is
  modelled as an injective content fingerprint into `String`,
* Shannon entropy is only ever *compared* by the source
  (`ent - prev_entropy > 0.5`); the comparison is embedded as an exact
  integer inequality (see `entGtAdd`), and the profile field `entropy`
  stores the multiset of byte frequencies that determines the entropy value,
* fallible file reads become `Except String (List ℕ)`,
* the watchdog callbacks, JSON persistence and CLI are outside the modelled
  core (the spec lists them as external collaborators).
-/

namespace GuardSpec

/-! ### Configuration constants (guard.py lines 17-34) -/

def BURST_WINDOW_SEC : ℚ := 5

def BURST_THRESHOLD : ℕ := 10

def ALERT_COOLDOWN_SEC : ℚ := 5

def ASCII_MIN : ℕ := 32

def ASCII_MAX : ℕ := 127

def PRINTABLE_THR : ℚ := 7/10

def ENTROPY_THR : ℚ := 1/2

def NGRAM_N : ℕ := 3

def JACC_THR : ℚ := 7/10

def MAX_REASONS : ℕ := 3

def HONEYPOT_NAMES : List String := ["honey1.txt", "honey2.txt", "honey3.txt"]

/-! ### Anomaly reasons

The Python code reports reasons as strings; here each distinct reason string
produced by `guard.py` is a constructor (payloads carry the data interpolated
into the string).  `reasonString` below renders a constructor back to the
reported string (with exact rationals in place of Python's 2-decimal float
formatting). -/

inductive Reason where
  | extension : Reason
  | readError (cause : String) : Reason
  | nonAscii : Reason
  | lowPrintable (frac : ℚ) : Reason
  | entropyPrintableChecksum : Reason
  | checksumEntropy : Reason
  | checksumLowPrintable : Reason
  | ngramAnomaly (sim : ℚ) : Reason
  | honeypotAccess : Reason
  | burst : Reason
deriving DecidableEq, Repr

def reasonString : Reason → String
  | Reason.extension => "extension"
  | Reason.readError cause => "read_error:" ++ cause
  | Reason.nonAscii => "non_ascii"
  | Reason.lowPrintable frac => "low_printable (ratio=" ++ toString frac ++ " < 0.7)"
  | Reason.entropyPrintableChecksum => "entropy+printable+checksum"
  | Reason.checksumEntropy => "checksum+entropy"
  | Reason.checksumLowPrintable => "checksum+low_printable"
  | Reason.ngramAnomaly sim =>
      "N-Gram anomaly\nDetails: Similarity dropped to " ++ toString sim ++ " (threshold = 0.7)"
  | Reason.honeypotAccess => "honeypot_access"
  | Reason.burst => "burst>10 in 5s"

/-! ### Data model (spec §3, guard.py profile dicts) -/

/-- `FileProfile` (the dict built at guard.py lines 191-198).  The `entropy`
field stores the multiset of byte-frequency counts of the profiled content;
this determines the Shannon entropy value the Python code stores as a float
(`[]` encodes the literal `0.0` stored for an empty file). -/
structure Profile where
  checksum : String
  entropy : List ℕ
  mtime : ℚ
  timestamp : String
  ngram : List (List ℕ × ℕ)
  size : ℕ
deriving DecidableEq, Repr

/-- `BaselineEntry`: per-path `{"history": [...], "latest": {...}}`
(guard.py line 255).  `latest = none` encodes the empty dict `{}`. -/
structure BaselineEntry where
  history : List Profile
  latest : Option Profile
deriving DecidableEq, Repr

/-- The baseline dict.  Python keeps path entries and the `"honeypots"` key in
one dict; they are split into two fields here. -/
structure Baseline where
  entries : List (String × BaselineEntry)
  honeypots : List String
deriving DecidableEq, Repr

/-- The filesystem view of one path at analysis time: `str(p)`, `p.name`,
`p.stat().st_mtime`, `p.stat().st_size`, and the outcome of
`p.read_bytes()` (`Except.error` models a raised I/O exception). -/
structure FileView where
  full : String
  name : String
  mtime : ℚ
  statSize : ℕ
  read : Except String (List ℕ)

/-! ### Helper functions (guard.py lines 41-112) -/

/-- `blake3sum` (guard.py line 41).  BLAKE3 itself is an external library;
it is modelled as an injective fingerprint of the content bytes, which is the
only property the analyzer relies on (fingerprints are solely compared for
equality). -/
def blake3sum (data : List ℕ) : String := "blake3:" ++ toString data

/-- Multiset of byte-frequency counts of `raw`: the values of the `Counter`
built by the per-byte loop at guard.py lines 142-144 (order irrelevant). -/
def byteCounts (raw : List ℕ) : List ℕ :=
  raw.dedup.map fun b => raw.count b

/-- Exact embedding of the float comparison `entropy(freq,total) - prevEnt > q`
(guard.py line 163), where both entropies are determined by frequency-count
multisets `newC`, `oldC` and `q : ℚ`.

With `N = Σ c`, the Shannon entropy of a count multiset `c` is
`ent c = (N·log2 N - Σ cᵢ·log2 cᵢ) / N = log2 (N^N / Π cᵢ^cᵢ) / N`.
Writing `A = N^N`, `B = Π cᵢ^cᵢ` and `q = num/den`, for `N₀, N₁ > 0`:
`ent new > ent old + q`
`⟺ den·N₀·log2 (A₁/B₁) > den·N₁·log2 (A₀/B₀) + num·N₀·N₁`
`⟺ A₁^(den·N₀) · B₀^(den·N₁) > A₀^(den·N₁) · B₁^(den·N₀) · 2^(num·N₀·N₁)`,
an exact integer comparison (signs of `num` handled by moving the power of 2
across).  `oldC = []` encodes a previous entropy of `0.0` (also the
`.get("entropy", 0)` default). -/
def entGtAdd (newC oldC : List ℕ) (q : ℚ) : Bool :=
  let N1 := newC.sum
  let A1 := N1 ^ N1
  let B1 := (newC.map fun k => k ^ k).prod
  let N0 := oldC.sum
  let A0 := N0 ^ N0
  let B0 := (oldC.map fun k => k ^ k).prod
  if N0 = 0 then
    let m1 : Int := q.num * N1
    decide (A1 ^ q.den * 2 ^ (-m1).toNat > B1 ^ q.den * 2 ^ m1.toNat)
  else
    let m : Int := q.num * N0 * N1
    decide (A1 ^ (q.den * N0) * B0 ^ (q.den * N1) * 2 ^ (-m).toNat >
            A0 ^ (q.den * N1) * B1 ^ (q.den * N0) * 2 ^ m.toNat)

/-- `entropy(counter, total)` (guard.py lines 48-54): the Shannon entropy, in
bits per byte, of the frequency counts `counts` out of `total` bytes:
`-Σ (c/total) · log2 (c/total)`.  Real-valued (the source computes it in
floating point); the analyzer embedding never needs this number itself — it
only needs its comparison against a rational threshold, which `entGtAdd`
decides exactly (theorem `entGtAdd_correct` below). -/
noncomputable def entropy (counts : List ℕ) (total : ℕ) : ℝ :=
  -((counts.map fun c : ℕ =>
      ((c : ℝ) / (total : ℝ)) * Real.logb 2 ((c : ℝ) / (total : ℝ))).sum)

/-- The n-gram windows enumerated by `ngram_profile` (guard.py line 75):
`data[i : i+n]` for `i in range(0, len(data) - n + 1, step)` with
`n = NGRAM_N = 3`, `step = STEP = 1` (empty when `len < n`, as Python's
`range` is for a negative bound). -/
def ngramWindows (raw : List ℕ) : List (List ℕ) :=
  (List.range (raw.length + 1 - NGRAM_N)).map fun i => (raw.drop i).take NGRAM_N

/-- `ngram_profile` (guard.py line 57): the `Counter` of windows, as an
association list keyed by the distinct windows. -/
def ngram_profile (raw : List ℕ) : List (List ℕ × ℕ) :=
  (ngramWindows raw).dedup.map fun g => (g, (ngramWindows raw).count g)

/-- Distinct keys of an n-gram counter (`set(a)` at guard.py line 95). -/
def keySet (m : List (List ℕ × ℕ)) : List (List ℕ) :=
  (m.map Prod.fst).dedup

/-- `jaccard` (guard.py lines 78-96): `len(sa & sb) / (len(sa | sb) or 1)`. -/
def jaccard (a b : List (List ℕ × ℕ)) : ℚ :=
  let sa := keySet a
  let sb := keySet b
  let inter := sa.filter fun g => sb.contains g
  let uni := (sa ++ sb).dedup
  (inter.length : ℚ) / (if uni.length = 0 then 1 else (uni.length : ℚ))

/-! ### The single-pass analyzer (guard.py lines 115-200) -/

/-- `(prev or {}).get("latest", {})` (guard.py line 117). -/
def latestOf : Option BaselineEntry → Option Profile
  | none => none
  | some e => e.latest

/-- `prev_latest.get("mtime") == mtime` (guard.py line 118); a missing key
(`None`) never equals a float. -/
def prevMtimeEq (prev : Option BaselineEntry) (mtime : ℚ) : Bool :=
  match latestOf prev with
  | none => false
  | some p => decide (p.mtime = mtime)

/-- `prev_latest.get("entropy", 0)` (guard.py line 163), as a count multiset
(`[]` encodes the default `0`). -/
def prevEntropyC (prev : Option BaselineEntry) : List ℕ :=
  match latestOf prev with
  | none => []
  | some p => p.entropy

/-- `prev_latest.get("checksum") and prev_latest["checksum"] != checksum`
(guard.py line 162); an absent or empty stored checksum is falsy. -/
def checksumChangedB (prev : Option BaselineEntry) (cks : String) : Bool :=
  match latestOf prev with
  | none => false
  | some p => (p.checksum != "") && (p.checksum != cks)

/-- `prev_latest.get("ngram")` (guard.py line 176); both a missing key and an
empty dict are falsy, so both are encoded as `[]`. -/
def prevNgramOf (prev : Option BaselineEntry) : List (List ℕ × ℕ) :=
  match latestOf prev with
  | none => []
  | some p => p.ngram

/-- `prev_latest.get("size", total)` (guard.py line 177). -/
def prevSizeOf (prev : Option BaselineEntry) (total : ℕ) : ℕ :=
  match latestOf prev with
  | none => total
  | some p => p.size

/-- The per-byte loop of guard.py lines 143-150: walk the bytes, abort with
`none` on the first byte that is not `< 127`, otherwise return the count of
bytes in the printable range `ASCII_MIN ≤ b ≤ ASCII_MAX`.  (The byte-frequency
`Counter` the same loop builds is recovered from `raw` by `byteCounts`, which
is legitimate because the loop's counter is consumed only when the loop
finished without aborting, i.e. covered every byte.) -/
def passPrintable : List ℕ → ℕ → Option ℕ
  | [], acc => some acc
  | b :: rest, acc =>
    if b < 127 then
      passPrintable rest (if ASCII_MIN ≤ b ∧ b ≤ ASCII_MAX then acc + 1 else acc)
    else none

/-- The `elif` chain of guard.py lines 166-171 (run only when no prior reason
exists and the checksum changed): at most one combination reason is appended.
`lowp` is the test `printable_ratio < PRINTABLE_THR`. -/
def comboReasons (entropyUp lowp : Bool) : List Reason :=
  if entropyUp && lowp then [Reason.entropyPrintableChecksum]
  else if entropyUp then [Reason.checksumEntropy]
  else if lowp then [Reason.checksumLowPrintable]
  else []

/-- The reason-cap early return of guard.py lines 172-173:
`if len(reasons) >= MAX_REASONS: return reasons, {}`.  Yields `some` of the
returned pair when the cap is reached, `none` when execution continues. -/
def capStage (rs : List Reason) : Option (List Reason × Option Profile) :=
  if MAX_REASONS ≤ rs.length then some (rs, none) else none

/-- Guard.py lines 175-200: the n-gram similarity stage, the n-gram capture
policy, and the assembly of the returned profile. -/
def finishStage (prev : Option BaselineEntry) (raw : List ℕ) (mtime : ℚ)
    (ts : String) (cks : String) (entC : List ℕ) (ccB : Bool)
    (rs : List Reason) : List Reason × Option Profile :=
  let total := raw.length
  let prevNg := prevNgramOf prev
  let prevSize := prevSizeOf prev total
  let shrinkQ : ℚ := if prevSize ≠ 0 then (total : ℚ) / (prevSize : ℚ) else 1
  let step1 : List Reason × Option (List (List ℕ × ℕ)) :=
    if rs.isEmpty && ccB && !prevNg.isEmpty then
      let ng := ngram_profile raw
      let sim := jaccard prevNg ng
      if sim < JACC_THR then (rs ++ [Reason.ngramAnomaly sim], some ng)
      else (rs, some ng)
    else (rs, none)
  let newNg : Option (List (List ℕ × ℕ)) :=
    if prevNg.isEmpty || shrinkQ < 1/2 then some (ngram_profile raw) else step1.2
  let prof : Profile :=
    { checksum := cks
      entropy := entC
      mtime := mtime
      timestamp := ts
      ngram := match newNg with | none => [] | some l => l
      size := total }
  (step1.1, some prof)

/-- Python `PurePath.suffix` of a final path component: the substring from the
last `'.'`, unless that dot is the first or last character. -/
def lastDotIdxAux : List Char → ℕ → Option ℕ → Option ℕ
  | [], _, acc => acc
  | c :: rest, i, acc => lastDotIdxAux rest (i + 1) (if c = '.' then some i else acc)

def pySuffix (name : String) : String :=
  match lastDotIdxAux name.data 0 none with
  | none => ""
  | some i =>
    if 0 < i ∧ i + 1 < name.data.length then String.mk (name.data.drop i) else ""

/-- `str.lower()` restricted to ASCII (file suffixes here are ASCII). -/
def strLower (s : String) : String := String.mk (s.data.map Char.toLower)

/-- `analyze_file_single_pass(path, prev)` (guard.py lines 115-200).  `fv`
carries what the call reads from the filesystem and `ts` the
`current_timestamp()` string; `none` in the profile position is Python's
falsy `{}`. -/
def analyze_file_single_pass (fv : FileView) (prev : Option BaselineEntry)
    (ts : String) : List Reason × Option Profile :=
  let mtime := fv.mtime
  if prevMtimeEq prev mtime then ([], none)
  else if strLower (pySuffix fv.name) ≠ ".txt" then ([Reason.extension], none)
  else
    match fv.read with
    | Except.error e => ([Reason.readError e], none)
    | Except.ok raw =>
      let total := raw.length
      if total = 0 then
        ([], some { checksum := blake3sum []
                    entropy := []
                    mtime := mtime
                    timestamp := ts
                    ngram := []
                    size := fv.statSize })
      else
        match passPrintable raw 0 with
        | none => ([Reason.nonAscii], none)
        | some pcnt =>
          let ratioP : ℚ := (pcnt : ℚ) / (total : ℚ)
          let entC := byteCounts raw
          let cks := blake3sum raw
          let rs1 : List Reason :=
            if ratioP < PRINTABLE_THR then [Reason.lowPrintable ratioP] else []
          let ccB := checksumChangedB prev cks
          let entUp := entGtAdd entC (prevEntropyC prev) ENTROPY_THR
          if rs1.isEmpty && ccB then
            let rs2 := rs1 ++ comboReasons entUp (decide (ratioP < PRINTABLE_THR))
            match capStage rs2 with
            | some out => out
            | none => finishStage prev raw mtime ts cks entC ccB rs2
          else finishStage prev raw mtime ts cks entC ccB rs1

/-! ### Alert deduplication (guard.py lines 39, 99-109) -/

/-- `last_alerts : path -> (reason_str, timestamp)`. -/
abbrev AlertMap := List (String × String × ℚ)

def joinReasons (rs : List Reason) : String :=
  String.intercalate ", " (rs.map reasonString)

def alertLine (key : String) (rs : List Reason) : String :=
  "[ALERT] " ++ key ++ " -> " ++ joinReasons rs

/-- Replace the record for `key` (first occurrence), appending if absent —
the assignment `last_alerts[key] = (reason_str, now)`. -/
def setAlert : AlertMap → String → String → ℚ → AlertMap
  | [], key, r, t => [(key, r, t)]
  | (k, v) :: rest, key, r, t =>
    if k = key then (key, r, t) :: rest else (k, v) :: setAlert rest key r t

/-- `alert(path, reasons)` (guard.py lines 99-109) as a step on the
deduplication table: returns the emitted lines (none when suppressed) and the
updated table.  `last_alerts.get(key, (None, 0.0))` with a missing key yields
`None`, which never equals a reason string, hence the `none` branch emits. -/
def alertStep (la : AlertMap) (key : String) (rs : List Reason) (now : ℚ) :
    List String × AlertMap :=
  let rstr := joinReasons rs
  let hit : Bool :=
    match List.lookup key la with
    | some (lastR, lastT) => (lastR == rstr) && decide (now - lastT < ALERT_COOLDOWN_SEC)
    | none => false
  if hit then ([], la)
  else ([alertLine key rs], setAlert la key rstr now)

/-! ### Baseline store (guard.py lines 250-257 and 306-314) -/

def lookupEntry (b : Baseline) (key : String) : Option BaselineEntry :=
  List.lookup key b.entries

/-- Replace the entry for `key` (first occurrence), appending if absent:
dict assignment semantics for `setdefault` + mutation. -/
def setEntry : List (String × BaselineEntry) → String → BaselineEntry →
    List (String × BaselineEntry)
  | [], key, e => [(key, e)]
  | (k, v) :: rest, key, e =>
    if k = key then (key, e) :: rest else (k, v) :: setEntry rest key e

/-- The baseline update performed by both `Guard._process` (guard.py lines
254-257) and the seed scan in `main` (lines 309-312): when the analyzer
returned a (truthy) profile, `setdefault` the entry, append the profile to its
history and point `latest` at it; a falsy profile leaves the baseline
untouched. -/
def applyProfile (b : Baseline) (key : String) : Option Profile → Baseline
  | none => b
  | some prof =>
    let e := (lookupEntry b key).getD { history := [], latest := none }
    { b with
      entries := setEntry b.entries key
        { history := e.history ++ [prof], latest := some prof } }

/-! ### Burst gate (guard.py lines 215-233) -/

/-- The eviction loop: `while window and now - window[0] > BURST_WINDOW_SEC:
window.popleft()`. -/
def dropOld : List ℚ → ℚ → List ℚ
  | [], _ => []
  | t :: rest, now =>
    if now - t > BURST_WINDOW_SEC then dropOld rest now else t :: rest

/-- `Guard._too_many_events` (guard.py lines 215-233): append `now`, evict
stale entries from the front, and report whether the window holds at least
`BURST_THRESHOLD` events; returns (verdict, new window). -/
def tooManyEvents (w : List ℚ) (now : ℚ) : Bool × List ℚ :=
  let w2 := dropOld (w ++ [now]) now
  (decide (BURST_THRESHOLD ≤ w2.length), w2)

/-- Folding `admit` calls (the `.1` of the fold is the last call's verdict). -/
def admitRun (times : List ℚ) : Bool × List ℚ :=
  times.foldl (fun acc t => tooManyEvents acc.2 t) (false, [])

/-! ### The orchestrator (guard.py `Guard._process`, lines 235-257) -/

/-- Python `str.startswith`, by character list (kernel-reducible). -/
def strStarts (s t : String) : Bool := t.data.isPrefixOf s.data

/-- Python `str.endswith`, by character list (kernel-reducible). -/
def strEnds (s t : String) : Bool := t.data.isSuffixOf s.data

/-- Guard state: the baseline dict, the events deque, and the module-global
`last_alerts` table. -/
structure GuardState where
  baseline : Baseline
  window : List ℚ
  alerts : AlertMap

/-- `Guard._process(p)` (guard.py lines 235-257) for one delivered non-directory
notification, returning the emitted alert lines and the successor state.
Order of checks is the source's: honeypot membership, then the hidden/backup
ignore filter, then the burst gate, then the analyzer. -/
def guardProcess (st : GuardState) (fv : FileView) (now : ℚ) (ts : String) :
    List String × GuardState :=
  if st.baseline.honeypots.contains fv.name then
    let r := alertStep st.alerts fv.full [Reason.honeypotAccess] now
    (r.1, { st with alerts := r.2 })
  else if strEnds fv.name "~" || strStarts fv.name "." then ([], st)
  else
    let tm := tooManyEvents st.window now
    if tm.1 then
      let r := alertStep st.alerts "★" [Reason.burst] now
      (r.1, { st with window := tm.2, alerts := r.2 })
    else
      let ar := analyze_file_single_pass fv (lookupEntry st.baseline fv.full) ts
      let r := if ar.1.isEmpty then ([], st.alerts)
               else alertStep st.alerts fv.full ar.1 now
      (r.1, { baseline := applyProfile st.baseline fv.full ar.2
              window := tm.2
              alerts := r.2 })

end GuardSpec

namespace GuardSpec

/-! ### Concrete inputs used by witnesses and counterexamples -/

/-- Previous profile for the C1 scenario: entropy exactly `1.0`
(count multiset `[1, 1]`), fingerprint of content `[0, 0]`. -/
def exProfC1 : Profile :=
  { checksum := blake3sum [0, 0], entropy := [1, 1], mtime := 1,
    timestamp := "t0", ngram := [], size := 2 }

def exEntryC1 : BaselineEntry := { history := [exProfC1], latest := some exProfC1 }

/-- New content for the C1 scenario: ten distinct bytes, all `< 127`, three of
them printable (ratio `3/10 < 0.70`), entropy `log2 10 ≈ 3.32` (delta over the
previous `1.0` exceeds `0.5`), fingerprint differing from the stored one. -/
def exFvC1 : FileView :=
  { full := "/w/f.txt", name := "f.txt", mtime := 2, statSize := 10,
    read := Except.ok [1, 2, 3, 4, 5, 6, 7, 32, 33, 34] }

def exFvRead : FileView :=
  { full := "/w/a.txt", name := "a.txt", mtime := 1, statSize := 0,
    read := Except.error "boom" }

/-- Content that is 99% printable but contains one byte `≥ 127`. -/
def exRawHigh : List ℕ := List.replicate 99 65 ++ [200]

def exFvHigh : FileView :=
  { full := "/w/h.txt", name := "h.txt", mtime := 1, statSize := 100,
    read := Except.ok exRawHigh }

def exProfMt : Profile :=
  { checksum := blake3sum [65], entropy := [1], mtime := 5,
    timestamp := "t0", ngram := [], size := 1 }

def exEntryMt : BaselineEntry := { history := [exProfMt], latest := some exProfMt }

def exFvMt : FileView :=
  { full := "/w/m.txt", name := "m.txt", mtime := 5, statSize := 1,
    read := Except.ok [65] }

def exStHp : GuardState :=
  { baseline := { entries := [], honeypots := [".honey1.txt"] },
    window := [], alerts := [] }

def exFvHp : FileView :=
  { full := "/w/.honey1.txt", name := ".honey1.txt", mtime := 3, statSize := 29,
    read := Except.ok [35, 35] }

/-- A deduplication table holding one record for path `/a` at time `0`. -/
def exLa : AlertMap := [("/a", "honeypot_access", 0)]

/-- Ten admit times within five seconds. -/
def exBurstA : List ℚ := [0, 1/2, 1, 3/2, 2, 5/2, 3, 7/2, 4, 9/2]

/-- Nine admit times, a six-second gap, then one more. -/
def exBurstB : List ℚ := [0, 1/2, 1, 3/2, 2, 5/2, 3, 7/2, 4, 10]

def exProf10 : Profile :=
  { checksum := blake3sum [66], entropy := [1], mtime := 9,
    timestamp := "t9", ngram := [], size := 1 }

def exBase10 : Baseline :=
  { entries := [("/w/x.txt", { history := [exProfMt], latest := some exProfMt })],
    honeypots := ["honey1.txt"] }

end GuardSpec

namespace GuardSpec

/-! ### Helper lemmas -/

theorem comboReasons_length_le_one (e l : Bool) : (comboReasons e l).length ≤ 1 := by
  revert e l
  decide

theorem finishStage_fst_of_ne_nil (prev : Option BaselineEntry) (raw : List ℕ)
    (mtime : ℚ) (ts cks : String) (entC : List ℕ) (ccB : Bool)
    (rs : List Reason) (h : rs ≠ []) :
    (finishStage prev raw mtime ts cks entC ccB rs).1 = rs := by
  unfold finishStage
  have he : rs.isEmpty = false := by
    cases rs with
    | nil => exact absurd rfl h
    | cons a t => rfl
  simp [he]

theorem finishStage_fst_len (prev : Option BaselineEntry) (raw : List ℕ)
    (mtime : ℚ) (ts cks : String) (entC : List ℕ) (ccB : Bool)
    (rs : List Reason) (h : rs.length ≤ 1) :
    (finishStage prev raw mtime ts cks entC ccB rs).1.length ≤ 1 := by
  cases rs with
  | nil =>
    unfold finishStage
    simp only [List.isEmpty_nil, Bool.true_and]
    split
    · split <;> simp
    · simp
  | cons a t =>
    rw [finishStage_fst_of_ne_nil prev raw mtime ts cks entC ccB _ (by simp)]
    exact h

end GuardSpec


namespace GuardSpec

theorem capStage_eq_none (rs : List Reason) (h : rs.length < MAX_REASONS) :
    capStage rs = none := by
  unfold capStage
  rw [if_neg]
  omega

/-- Claim C2: for every path view, previous baseline entry and timestamp, the
reasons list returned by `analyze_file_single_pass` contains at most one
element, so the low-printable reason, the checksum-combination reasons and the
n-gram anomaly reason are pairwise mutually exclusive within one call. -/
theorem claim2_at_most_one_reason (fv : FileView) (prev : Option BaselineEntry)
    (ts : String) : (analyze_file_single_pass fv prev ts).1.length ≤ 1 := by
  unfold analyze_file_single_pass
  dsimp only
  by_cases h1 : prevMtimeEq prev fv.mtime = true
  · simp [h1]
  rw [if_neg h1]
  by_cases h2 : strLower (pySuffix fv.name) ≠ ".txt"
  · rw [if_pos h2]
    simp
  rw [if_neg h2]
  rcases hread : fv.read with e | raw
  · simp
  dsimp only
  by_cases h3 : raw.length = 0
  · simp [h3]
  rw [if_neg h3]
  cases hpass : passPrintable raw 0 with
  | none => simp
  | some pcnt =>
    dsimp only
    by_cases hlow : ((pcnt : ℚ) / (raw.length : ℚ)) < PRINTABLE_THR
    · simp only [if_pos hlow, List.isEmpty_cons, Bool.false_and, Bool.false_eq_true,
        if_false]
      exact finishStage_fst_len _ _ _ _ _ _ _ _ (by simp)
    · simp only [if_neg hlow, List.isEmpty_nil, Bool.true_and, List.nil_append]
      by_cases hcc : checksumChangedB prev (blake3sum raw) = true
      · rw [if_pos hcc]
        rw [capStage_eq_none _ ?_]
        · exact finishStage_fst_len _ _ _ _ _ _ _ _
            (comboReasons_length_le_one _ _)
        · calc (comboReasons _ _).length ≤ 1 := comboReasons_length_le_one _ _
            _ < MAX_REASONS := by unfold MAX_REASONS; omega
      · rw [if_neg hcc]
        exact finishStage_fst_len _ _ _ _ _ _ _ _ (by simp)

end GuardSpec

namespace GuardSpec

/-- Claim C3: whenever the running reason count reaches the cap
`MAX_REASONS = 3`, the cap check of `analyze_file_single_pass` (guard.py lines
172-173, embedded as `capStage`) stops the call and returns exactly the
reasons collected so far together with no new profile; and a call that returns
no profile never updates the baseline (`applyProfile` with `none` is the
identity), so the next change is re-evaluated against the old baseline. -/
theorem claim3_cap_stops_without_profile (a b c : Reason) (rest : List Reason) :
    capStage (a :: b :: c :: rest) = some (a :: b :: c :: rest, none) ∧
    ∀ (base : Baseline) (key : String), applyProfile base key none = base := by
  constructor
  · unfold capStage MAX_REASONS
    rw [if_pos (by simp only [List.length_cons]; omega)]
  · intro base key
    rfl

/-- Claim C4: a monitored `.txt` path with changed mtime whose content cannot
be read yields `(["read_error:<cause>"], no profile)`; the analyzer is a total
function of the read outcome, so an unreadable file is reported as a finding
for that single file and is never fatal. -/
theorem claim4_read_error_is_local (fv : FileView) (prev : Option BaselineEntry)
    (ts e : String)
    (h1 : prevMtimeEq prev fv.mtime = false)
    (h2 : strLower (pySuffix fv.name) = ".txt")
    (h3 : fv.read = Except.error e) :
    analyze_file_single_pass fv prev ts = ([Reason.readError e], none) := by
  unfold analyze_file_single_pass
  dsimp only
  rw [if_neg (by simp [h1]), if_neg (by simp [h2]), h3]

theorem claim4_witness :
    analyze_file_single_pass exFvRead none "t" = ([Reason.readError "boom"], none) :=
  claim4_read_error_is_local exFvRead none "t" "boom" (by decide) (by decide) rfl

/-- Claim C9: `analyze_file_single_pass` is an idempotent no-op when the mtime
is unchanged: if the current modification time equals the previous profile's
modification time the call returns (no reasons, no profile), and since a call
without a profile leaves the baseline untouched, a second call with identical
metadata sees the same previous profile and returns the same result. -/
theorem claim9_unchanged_mtime_noop (fv : FileView) (prev : Option BaselineEntry)
    (ts : String) (p : Profile)
    (h1 : latestOf prev = some p) (h2 : p.mtime = fv.mtime) :
    analyze_file_single_pass fv prev ts = ([], none) ∧
    ∀ (b : Baseline) (key : String), applyProfile b key none = b := by
  refine ⟨?_, fun b key => rfl⟩
  unfold analyze_file_single_pass
  dsimp only
  rw [if_pos]
  unfold prevMtimeEq
  rw [h1]
  simp [h2]

theorem claim9_witness :
    (analyze_file_single_pass exFvMt (some exEntryMt) "t1" = ([], none) ∧
      analyze_file_single_pass exFvMt (some exEntryMt) "t2" = ([], none)) ∧
    applyProfile exBase10 "/w/m.txt" none = exBase10 :=
  ⟨⟨(claim9_unchanged_mtime_noop exFvMt (some exEntryMt) "t1" exProfMt rfl (by decide)).1,
    (claim9_unchanged_mtime_noop exFvMt (some exEntryMt) "t2" exProfMt rfl (by decide)).1⟩,
   (claim9_unchanged_mtime_noop exFvMt (some exEntryMt) "t1" exProfMt rfl (by decide)).2
     exBase10 "/w/m.txt"⟩

end GuardSpec

namespace GuardSpec

theorem passPrintable_eq_none (raw : List ℕ) (hb : ∃ b ∈ raw, 127 ≤ b) :
    ∀ acc, passPrintable raw acc = none := by
  induction raw with
  | nil => simp at hb
  | cons b rest ih =>
    intro acc
    rcases hb with ⟨x, hx, hge⟩
    unfold passPrintable
    rcases List.mem_cons.mp hx with h | h
    · subst h
      rw [if_neg (by omega)]
    · by_cases hlt : b < 127
      · rw [if_pos hlt]
        exact ih ⟨x, h, hge⟩ _
      · rw [if_neg hlt]

theorem setEntry_lookup_self (l : List (String × BaselineEntry)) (key : String)
    (e : BaselineEntry) : List.lookup key (setEntry l key e) = some e := by
  induction l with
  | nil => simp [setEntry, List.lookup]
  | cons kv rest ih =>
    rcases kv with ⟨k, v⟩
    unfold setEntry
    by_cases hk : k = key
    · rw [if_pos hk]
      simp [List.lookup]
    · rw [if_neg hk]
      have hbeq : (key == k) = false := beq_eq_false_iff_ne.mpr (Ne.symm hk)
      simpa [List.lookup, hbeq] using ih

theorem setEntry_lookup_other (l : List (String × BaselineEntry)) (key q : String)
    (e : BaselineEntry) (hq : q ≠ key) :
    List.lookup q (setEntry l key e) = List.lookup q l := by
  have hqkey : (q == key) = false := beq_eq_false_iff_ne.mpr hq
  induction l with
  | nil => simp [setEntry, List.lookup, hqkey]
  | cons kv rest ih =>
    rcases kv with ⟨k, v⟩
    unfold setEntry
    by_cases hk : k = key
    · subst hk
      rw [if_pos rfl]
      simp [List.lookup, hqkey]
    · rw [if_neg hk]
      cases hqk : (q == k) with
      | true => simp [List.lookup, hqk]
      | false => simpa [List.lookup, hqk] using ih

/-- Claim C6: a monitored `.txt` file with changed mtime and non-empty content
containing any byte `≥ 127` yields exactly `(["non_ascii"], no profile)`, no
matter how many of the other bytes are printable: the non-ASCII check always
wins over the ratio-based signals. -/
theorem claim6_non_ascii_wins (fv : FileView) (prev : Option BaselineEntry)
    (ts : String) (raw : List ℕ)
    (h1 : prevMtimeEq prev fv.mtime = false)
    (h2 : strLower (pySuffix fv.name) = ".txt")
    (h3 : fv.read = Except.ok raw)
    (h4 : raw ≠ [])
    (h5 : ∃ b ∈ raw, 127 ≤ b) :
    analyze_file_single_pass fv prev ts = ([Reason.nonAscii], none) := by
  unfold analyze_file_single_pass
  dsimp only
  rw [if_neg (by simp [h1]), if_neg (by simp [h2]), h3]
  dsimp only
  rw [if_neg (by simpa using h4), passPrintable_eq_none raw h5 0]

theorem claim6_witness :
    analyze_file_single_pass exFvHigh none "t" = ([Reason.nonAscii], none) :=
  claim6_non_ascii_wins exFvHigh none "t" exRawHigh (by decide) (by decide) rfl
    (by decide) (by decide)

/-- Claim C10: the baseline update performed by the live-event handler and by
the initial seed scan (both embedded as `applyProfile` with a `some` profile)
extends the path's history by exactly the new profile, removes or modifies no
existing history element, points `latest` at the appended profile — which is
the last element of the new history — and leaves every other path's entry
unchanged, so the `latest`-is-last invariant is preserved for every path. -/
theorem claim10_baseline_append_invariant (b : Baseline) (key : String)
    (prof : Profile) :
    lookupEntry (applyProfile b key (some prof)) key =
      some { history := ((lookupEntry b key).getD
                { history := [], latest := none }).history ++ [prof]
             latest := some prof } ∧
    (((lookupEntry b key).getD { history := [], latest := none }).history
        ++ [prof]).getLast? = some prof ∧
    ∀ q, q ≠ key →
      lookupEntry (applyProfile b key (some prof)) q = lookupEntry b q := by
  refine ⟨?_, ?_, ?_⟩
  · unfold applyProfile lookupEntry
    exact setEntry_lookup_self _ _ _
  · simp
  · intro q hq
    unfold applyProfile lookupEntry
    exact setEntry_lookup_other _ _ _ _ hq

theorem claim10_witness :
    lookupEntry (applyProfile exBase10 "/w/x.txt" (some exProf10)) "/w/x.txt" =
      some { history := [exProfMt, exProf10], latest := some exProf10 } ∧
    lookupEntry (applyProfile exBase10 "/w/x.txt" (some exProf10)) "/w/y.txt" =
      lookupEntry exBase10 "/w/y.txt" := by
  constructor
  · have h := (claim10_baseline_append_invariant exBase10 "/w/x.txt" exProf10).1
    rw [h]
    rfl
  · exact (claim10_baseline_append_invariant exBase10 "/w/x.txt" exProf10).2.2
      "/w/y.txt" (by decide)

/-- Claim C5: `Guard._process` tests honeypot-name membership before the
hidden/temporary-file ignore filter, so a delivered notification for a file
named exactly like a registered honeypot but prefixed with a dot still raises
the `honeypot_access` alert (here with a fresh deduplication record) instead
of being silently ignored. -/
theorem claim5_honeypot_before_ignore (st : GuardState) (fv : FileView)
    (now : ℚ) (ts : String)
    (h1 : st.baseline.honeypots.contains fv.name = true)
    (_h2 : strStarts fv.name "." = true)
    (h3 : List.lookup fv.full st.alerts = none) :
    (guardProcess st fv now ts).1 =
      [alertLine fv.full [Reason.honeypotAccess]] := by
  unfold guardProcess
  rw [if_pos h1]
  unfold alertStep
  rw [h3]
  rfl

theorem claim5_witness :
    (guardProcess exStHp exFvHp 3 "t").1 =
      ["[ALERT] /w/.honey1.txt -> honeypot_access"] := by
  have h := claim5_honeypot_before_ignore exStHp exFvHp 3 "t"
    (by decide) (by decide) rfl
  rw [h]
  rfl

end GuardSpec

namespace GuardSpec

theorem dropOld_eq_filter (now : ℚ) (l : List ℚ) (hs : List.Sorted (· ≤ ·) l) :
    dropOld l now = l.filter fun t => decide (now - t ≤ BURST_WINDOW_SEC) := by
  induction l with
  | nil => rfl
  | cons t rest ih =>
    rw [List.sorted_cons] at hs
    rcases hs with ⟨hhead, hrest⟩
    unfold dropOld
    by_cases h : now - t > BURST_WINDOW_SEC
    · rw [if_pos h, ih hrest]
      have hd : decide (now - t ≤ BURST_WINDOW_SEC) = false :=
        decide_eq_false (not_le.mpr h)
      simp only [List.filter_cons, hd, Bool.false_eq_true, if_false]
    · rw [if_neg h]
      symm
      apply List.filter_eq_self.mpr
      intro a ha
      rcases List.mem_cons.mp ha with rfl | ha
      · exact decide_eq_true (not_lt.mp h)
      · have hta := hhead a ha
        have : now - a ≤ BURST_WINDOW_SEC := by
          have := not_lt.mp h
          linarith
        exact decide_eq_true this

unseal Rat.add Rat.sub Rat.mul Rat.inv in
/-- Claim C7: each `_too_many_events` call appends the current time, evicts
every window entry older than `BURST_WINDOW_SEC = 5` seconds (timestamps are
appended in monotone order, hence the sortedness hypothesis), and returns true
iff the resulting window holds at least `BURST_THRESHOLD = 10` entries; in
particular ten admit calls within five seconds make the tenth return true,
while nine calls followed by a six-second gap and one more call return
false. -/
theorem claim7_burst_gate (w : List ℚ) (now : ℚ)
    (hs : List.Sorted (· ≤ ·) (w ++ [now])) :
    tooManyEvents w now =
      (decide (BURST_THRESHOLD ≤ ((w ++ [now]).filter fun t =>
          decide (now - t ≤ BURST_WINDOW_SEC)).length),
        (w ++ [now]).filter fun t => decide (now - t ≤ BURST_WINDOW_SEC)) ∧
    (admitRun exBurstA).1 = true ∧ (admitRun exBurstB).1 = false := by
  refine ⟨?_, by decide, by decide⟩
  unfold tooManyEvents
  rw [dropOld_eq_filter now _ hs]

unseal Rat.add Rat.sub Rat.mul Rat.inv in
theorem claim7_witness :
    tooManyEvents [0, 1] 2 =
      (decide (BURST_THRESHOLD ≤ ((([0, 1] : List ℚ) ++ [2]).filter fun t =>
          decide ((2 : ℚ) - t ≤ BURST_WINDOW_SEC)).length),
        (([0, 1] : List ℚ) ++ [2]).filter fun t =>
          decide ((2 : ℚ) - t ≤ BURST_WINDOW_SEC)) :=
  (claim7_burst_gate [0, 1] 2 (by decide)).1

theorem setAlert_lookup_other (la : AlertMap) (key q r : String) (t : ℚ)
    (hq : q ≠ key) :
    List.lookup q (setAlert la key r t) = List.lookup q la := by
  have hqkey : (q == key) = false := beq_eq_false_iff_ne.mpr hq
  induction la with
  | nil => simp [setAlert, List.lookup, hqkey]
  | cons kv rest ih =>
    rcases kv with ⟨k, v⟩
    unfold setAlert
    by_cases hk : k = key
    · subst hk
      rw [if_pos rfl]
      simp [List.lookup, hqkey]
    · rw [if_neg hk]
      cases hqk : (q == k) with
      | true => simp [List.lookup, hqk]
      | false => simpa [List.lookup, hqk] using ih

unseal Rat.add Rat.sub Rat.mul Rat.inv in
/-- Claim C8: two alert emissions for the same path carrying the same
comma-joined reason string within the `ALERT_COOLDOWN_SEC = 5` cooldown
produce exactly one emitted line — the second is suppressed and leaves the
per-path record unchanged — while an identical alert issued once the cooldown
has elapsed since the last emission emits again and updates the record; the
record is per path, so other paths' records are untouched.  The final
conjunct replays the concrete scenario: emit at time 0, suppress at time 1,
emit again at time 6. -/
theorem claim8_alert_dedup (la : AlertMap) (key : String) (rs : List Reason)
    (t0 t1 t2 : ℚ)
    (h0 : List.lookup key la = some (joinReasons rs, t0))
    (h1 : t1 - t0 < ALERT_COOLDOWN_SEC)
    (h2 : ALERT_COOLDOWN_SEC ≤ t2 - t0) :
    alertStep la key rs t1 = ([], la) ∧
    alertStep la key rs t2 =
      ([alertLine key rs], setAlert la key (joinReasons rs) t2) ∧
    (∀ q, q ≠ key →
      List.lookup q (setAlert la key (joinReasons rs) t2) = List.lookup q la) ∧
    (alertStep [] "/f" [Reason.nonAscii] 0 =
        (["[ALERT] /f -> non_ascii"], [("/f", "non_ascii", 0)]) ∧
     alertStep [("/f", "non_ascii", 0)] "/f" [Reason.nonAscii] 1 =
        ([], [("/f", "non_ascii", 0)]) ∧
     alertStep [("/f", "non_ascii", 0)] "/f" [Reason.nonAscii] 6 =
        (["[ALERT] /f -> non_ascii"], [("/f", "non_ascii", 6)])) := by
  refine ⟨?_, ?_, fun q hq => setAlert_lookup_other la key q _ t2 hq,
    by decide, by decide, by decide⟩
  · unfold alertStep
    rw [h0]
    simp [h1]
  · unfold alertStep
    rw [h0]
    have : decide (t2 - t0 < ALERT_COOLDOWN_SEC) = false :=
      decide_eq_false (not_lt.mpr h2)
    simp [this]

unseal Rat.add Rat.sub Rat.mul Rat.inv in
theorem claim8_witness :
    alertStep exLa "/a" [Reason.honeypotAccess] 1 = ([], exLa) ∧
    alertStep exLa "/a" [Reason.honeypotAccess] 6 =
      ([alertLine "/a" [Reason.honeypotAccess]],
        setAlert exLa "/a" (joinReasons [Reason.honeypotAccess]) 6) ∧
    List.lookup "/b" (setAlert exLa "/a" (joinReasons [Reason.honeypotAccess]) 6) =
      List.lookup "/b" exLa := by
  have h := claim8_alert_dedup exLa "/a" [Reason.honeypotAccess] 0 1 6
    (by decide) (by decide) (by decide)
  exact ⟨h.1, h.2.1, h.2.2.1 "/b" (by decide)⟩

end GuardSpec

namespace GuardSpec

/-- Claim C1 (amended): when the file is a monitored `.txt` with changed
mtime, readable non-empty all-ASCII content and printable ratio below
`PRINTABLE_THR = 0.70`, the returned reasons list is exactly
`["low_printable (ratio=...)"]` — regardless of the changed fingerprint and
the entropy delta, because the low-printable reason is appended first and the
checksum-combination classifier runs only when no reason exists yet. -/
theorem claim1_amended_low_printable (fv : FileView) (prev : Option BaselineEntry)
    (ts : String) (raw : List ℕ) (pcnt : ℕ)
    (h1 : prevMtimeEq prev fv.mtime = false)
    (h2 : strLower (pySuffix fv.name) = ".txt")
    (h3 : fv.read = Except.ok raw)
    (h4 : raw ≠ [])
    (h5 : passPrintable raw 0 = some pcnt)
    (h6 : (pcnt : ℚ) / (raw.length : ℚ) < PRINTABLE_THR) :
    (analyze_file_single_pass fv prev ts).1 =
      [Reason.lowPrintable ((pcnt : ℚ) / (raw.length : ℚ))] := by
  unfold analyze_file_single_pass
  dsimp only
  rw [if_neg (by simp [h1]), if_neg (by simp [h2]), h3]
  dsimp only
  rw [if_neg (by simpa using h4), h5]
  dsimp only
  rw [if_pos h6, if_neg (by simp)]
  rw [finishStage_fst_of_ne_nil _ _ _ _ _ _ _ _ (by simp)]

unseal Rat.add Rat.sub Rat.mul Rat.inv in
theorem claim1_amended_witness :
    (analyze_file_single_pass exFvC1 (some exEntryC1) "t1").1 =
      [Reason.lowPrintable ((3 : ℚ) / 10)] := by
  have h := claim1_amended_low_printable exFvC1 (some exEntryC1) "t1"
    [1, 2, 3, 4, 5, 6, 7, 32, 33, 34] 3 (by decide) (by decide) rfl (by decide)
    (by decide) (by decide)
  simpa using h

unseal Rat.add Rat.sub Rat.mul Rat.inv in
/-- Claim C1 counterexample: in the claimed scenario — previous profile with
entropy exactly `1.0` and fingerprint C1, a monitored `.txt` file with changed
mtime whose ten distinct bytes are all `< 127`, whose fingerprint C2 differs
from C1, whose printable ratio is exactly `3/10 < 0.70` and whose entropy
delta (`log2 10 - 1 ≈ 2.32`) exceeds the `0.5` threshold — the analyzer does
NOT return `["entropy+printable+checksum"]`; it returns the low-printable
reason.  The last two conjuncts certify that the scenario's operative
conditions (fingerprint changed, entropy delta above threshold) really hold at
this input. -/
theorem claim1_counterexample :
    (analyze_file_single_pass exFvC1 (some exEntryC1) "t1").1 ≠
      [Reason.entropyPrintableChecksum] ∧
    (analyze_file_single_pass exFvC1 (some exEntryC1) "t1").1 =
      [Reason.lowPrintable ((3 : ℚ) / 10)] ∧
    checksumChangedB (some exEntryC1)
      (blake3sum [1, 2, 3, 4, 5, 6, 7, 32, 33, 34]) = true ∧
    entGtAdd (byteCounts [1, 2, 3, 4, 5, 6, 7, 32, 33, 34])
      (prevEntropyC (some exEntryC1)) ENTROPY_THR = true := by
  refine ⟨by decide, by decide, by decide, by decide⟩

end GuardSpec


namespace GuardSpec

/-! ### Correctness of the exact entropy comparison

`entGtAdd` was derived from the float comparison `ent - prev_ent > q` by
clearing logarithms; the theorems below certify the derivation against the
real-valued `entropy` of the source. -/

theorem castPowSelfPos (k : ℕ) : (0 : ℝ) < (k : ℝ) ^ k := by
  cases k with
  | zero => simp
  | succ n => positivity

theorem natPowSelfPos (k : ℕ) : 0 < k ^ k := by
  cases k with
  | zero => simp
  | succ n => positivity

theorem prodPowPos (c : List ℕ) :
    (0 : ℝ) < (c.map fun k : ℕ => (k : ℝ) ^ k).prod := by
  induction c with
  | nil => simp
  | cons k t ih =>
    simp only [List.map_cons, List.prod_cons]
    exact mul_pos (castPowSelfPos k) ih

theorem natProdPowPos (c : List ℕ) : 0 < (c.map fun k => k ^ k).prod := by
  induction c with
  | nil => simp
  | cons k t ih =>
    simp only [List.map_cons, List.prod_cons]
    exact Nat.mul_pos (natPowSelfPos k) ih

theorem cast_prod_pow (c : List ℕ) :
    (((c.map fun k => k ^ k).prod : ℕ) : ℝ) =
      (c.map fun k : ℕ => (k : ℝ) ^ k).prod := by
  induction c with
  | nil => simp
  | cons k t ih =>
    simp only [List.map_cons, List.prod_cons]
    rw [Nat.cast_mul, Nat.cast_pow, ih]

theorem logb_prod_pow (c : List ℕ) :
    Real.logb 2 ((c.map fun k : ℕ => (k : ℝ) ^ k).prod) =
      (c.map fun k : ℕ => (k : ℝ) * Real.logb 2 k).sum := by
  induction c with
  | nil => simp
  | cons k t ih =>
    simp only [List.map_cons, List.prod_cons, List.sum_cons]
    rw [Real.logb_mul (ne_of_gt (castPowSelfPos k)) (ne_of_gt (prodPowPos t)),
      Real.logb_pow, ih]

theorem sum_plogp (c : List ℕ) (N : ℝ) (hc : ∀ k ∈ c, 0 < k) (hN : N ≠ 0) :
    (c.map fun k : ℕ => ((k : ℝ) / N) * Real.logb 2 ((k : ℝ) / N)).sum
      = ((c.map fun k : ℕ => (k : ℝ) * Real.logb 2 k).sum
          - (c.sum : ℝ) * Real.logb 2 N) / N := by
  induction c with
  | nil => simp
  | cons k t ih =>
    have hk : (k : ℝ) ≠ 0 := by
      have := hc k (List.mem_cons_self k t)
      positivity
    simp only [List.map_cons, List.sum_cons]
    rw [Real.logb_div hk hN, ih fun x hx => hc x (List.mem_cons_of_mem _ hx)]
    push_cast
    field_simp
    ring

theorem entropy_eq_logb (c : List ℕ) (hc : ∀ k ∈ c, 0 < k) (hs : c.sum ≠ 0) :
    entropy c c.sum =
      Real.logb 2 (((c.sum : ℝ)) ^ c.sum / (c.map fun k : ℕ => (k : ℝ) ^ k).prod)
        / (c.sum : ℝ) := by
  have hNne : ((c.sum : ℕ) : ℝ) ≠ 0 := Nat.cast_ne_zero.mpr hs
  unfold entropy
  rw [sum_plogp c _ hc hNne,
    Real.logb_div (ne_of_gt (castPowSelfPos c.sum)) (ne_of_gt (prodPowPos c)),
    Real.logb_pow, logb_prod_pow]
  ring

theorem nat_ineq_iff_logb (A B e : ℕ) (m : ℤ) (hA : 0 < A) (hB : 0 < B) :
    (B ^ e * 2 ^ m.toNat < A ^ e * 2 ^ (-m).toNat) ↔
      (m : ℝ) < (e : ℝ) * Real.logb 2 ((A : ℝ) / (B : ℝ)) := by
  have hAr : (0 : ℝ) < (A : ℝ) := by exact_mod_cast hA
  have hBr : (0 : ℝ) < (B : ℝ) := by exact_mod_cast hB
  have hzpow : ((2 : ℝ)) ^ (m : ℤ) = (2 : ℝ) ^ m.toNat / (2 : ℝ) ^ (-m).toNat := by
    rw [← zpow_natCast (2 : ℝ) m.toNat, ← zpow_natCast (2 : ℝ) (-m).toNat,
      ← zpow_sub₀ (two_ne_zero)]
    congr 1
    omega
  have key1 : (B ^ e * 2 ^ m.toNat < A ^ e * 2 ^ (-m).toNat) ↔
      ((B : ℝ) ^ e * 2 ^ m.toNat < (A : ℝ) ^ e * 2 ^ (-m).toNat) := by
    rw [← Nat.cast_lt (α := ℝ)]
    push_cast
    rfl
  have key2 : ((B : ℝ) ^ e * 2 ^ m.toNat < (A : ℝ) ^ e * 2 ^ (-m).toNat) ↔
      ((2 : ℝ)) ^ (m : ℤ) < ((A : ℝ) / B) ^ e := by
    rw [hzpow, div_pow, div_lt_div_iff₀ (by positivity) (by positivity)]
    constructor <;> intro h <;>
      nlinarith [h, mul_comm ((B : ℝ) ^ e) ((2 : ℝ) ^ m.toNat),
        mul_comm ((A : ℝ) ^ e) ((2 : ℝ) ^ (-m).toNat)]
  rw [key1, key2, ← Real.rpow_intCast 2 m,
    ← Real.lt_logb_iff_rpow_lt one_lt_two (by positivity), Real.logb_pow]

end GuardSpec



namespace GuardSpec

theorem div_ineq_shuffle (E0 E1 n0 n1 d nm : ℝ) (h0 : 0 < n0) (h1 : 0 < n1)
    (hd : 0 < d) :
    (nm * n0 * n1 < d * (n0 * E1 - n1 * E0)) ↔ (E0 / n0 + nm / d < E1 / n1) := by
  rw [div_add_div _ _ (ne_of_gt h0) (ne_of_gt hd),
    div_lt_div_iff₀ (by positivity) h1]
  constructor <;> intro h <;> nlinarith [h]

theorem byteCounts_pos (raw : List ℕ) : ∀ k ∈ byteCounts raw, 0 < k := by
  intro k hk
  unfold byteCounts at hk
  rcases List.mem_map.mp hk with ⟨b, hb, rfl⟩
  exact List.count_pos_iff.mpr (List.mem_dedup.mp hb)

theorem byteCounts_sum (raw : List ℕ) : (byteCounts raw).sum = raw.length := by
  unfold byteCounts
  exact List.sum_map_count_dedup_eq_length raw

theorem logb_quad (x1 b1 x0 b0 : ℝ) (n0 n1 : ℕ) (hx1 : 0 < x1) (hb1 : 0 < b1)
    (hx0 : 0 < x0) (hb0 : 0 < b0) :
    Real.logb 2 ((x1 ^ n0 * b0 ^ n1) / (x0 ^ n1 * b1 ^ n0)) =
      (n0 : ℝ) * Real.logb 2 (x1 / b1) - (n1 : ℝ) * Real.logb 2 (x0 / b0) := by
  rw [Real.logb_div (ne_of_gt (mul_pos (pow_pos hx1 _) (pow_pos hb0 _)))
      (ne_of_gt (mul_pos (pow_pos hx0 _) (pow_pos hb1 _))),
    Real.logb_mul (ne_of_gt (pow_pos hx1 _)) (ne_of_gt (pow_pos hb0 _)),
    Real.logb_mul (ne_of_gt (pow_pos hx0 _)) (ne_of_gt (pow_pos hb1 _)),
    Real.logb_pow, Real.logb_pow, Real.logb_pow, Real.logb_pow,
    Real.logb_div (ne_of_gt hx1) (ne_of_gt hb1),
    Real.logb_div (ne_of_gt hx0) (ne_of_gt hb0)]
  ring

theorem entGtAdd_correct (newC oldC : List ℕ) (q : ℚ)
    (hnew : ∀ k ∈ newC, 0 < k) (hold : ∀ k ∈ oldC, 0 < k)
    (hN1 : newC.sum ≠ 0) :
    entGtAdd newC oldC q = true ↔
      entropy oldC oldC.sum + (q : ℝ) < entropy newC newC.sum := by
  have hN1pos : (0 : ℝ) < (newC.sum : ℝ) := by
    exact_mod_cast Nat.pos_of_ne_zero hN1
  have hdenpos : (0 : ℝ) < (q.den : ℝ) := by
    exact_mod_cast Nat.pos_of_ne_zero q.den_nz
  have hA1pos : 0 < newC.sum ^ newC.sum := natPowSelfPos newC.sum
  have hB1pos : 0 < (newC.map fun k => k ^ k).prod := natProdPowPos newC
  unfold entGtAdd
  dsimp only
  by_cases h0 : oldC.sum = 0
  · have hnilC : oldC = [] := by
      cases oldC with
      | nil => rfl
      | cons a t =>
        exfalso
        have ha := hold a (List.mem_cons_self a t)
        simp only [List.sum_cons] at h0
        omega
    subst hnilC
    rw [if_pos h0]
    have hent0 : entropy ([] : List ℕ) ([] : List ℕ).sum = 0 := by
      simp [entropy]
    rw [hent0, zero_add, decide_eq_true_eq, gt_iff_lt,
      nat_ineq_iff_logb _ _ q.den (q.num * (newC.sum : ℤ)) hA1pos hB1pos]
    rw [entropy_eq_logb newC hnew hN1, Rat.cast_def]
    rw [Nat.cast_pow, cast_prod_pow]
    rw [div_lt_div_iff₀ hdenpos hN1pos, Int.cast_mul, Int.cast_natCast,
      mul_comm (Real.logb 2 _) ((q.den : ℝ))]
  · rw [if_neg h0]
    have hN0pos : (0 : ℝ) < (oldC.sum : ℝ) := by
      exact_mod_cast Nat.pos_of_ne_zero h0
    have hA0pos : 0 < oldC.sum ^ oldC.sum := natPowSelfPos oldC.sum
    have hB0pos : 0 < (oldC.map fun k => k ^ k).prod := natProdPowPos oldC
    rw [decide_eq_true_eq, gt_iff_lt]
    rw [Nat.mul_comm q.den oldC.sum, Nat.mul_comm q.den newC.sum]
    rw [pow_mul, pow_mul, pow_mul, pow_mul, ← mul_pow, ← mul_pow]
    rw [nat_ineq_iff_logb _ _ q.den (q.num * (oldC.sum : ℤ) * (newC.sum : ℤ))
      (Nat.mul_pos (pow_pos hA1pos _) (pow_pos hB0pos _))
      (Nat.mul_pos (pow_pos hA0pos _) (pow_pos hB1pos _))]
    simp only [Nat.cast_mul, Nat.cast_pow, cast_prod_pow]
    rw [logb_quad (((newC.sum : ℝ)) ^ newC.sum)
        ((newC.map fun k : ℕ => (k : ℝ) ^ k).prod)
        (((oldC.sum : ℝ)) ^ oldC.sum)
        ((oldC.map fun k : ℕ => (k : ℝ) ^ k).prod)
        oldC.sum newC.sum (pow_pos hN1pos _) (prodPowPos newC)
        (pow_pos hN0pos _) (prodPowPos oldC)]
    rw [Int.cast_mul, Int.cast_mul, Int.cast_natCast, Int.cast_natCast]
    rw [div_ineq_shuffle _ _ _ _ _ _ hN0pos hN1pos hdenpos]
    rw [entropy_eq_logb newC hnew hN1, entropy_eq_logb oldC hold h0, Rat.cast_def]

end GuardSpec
